import Mathlib

/-!
Verification of libniftyprefs (waebbl/niftyprefs): a shallow embedding of the
class/object registry and the node-object conversion engine from
`src/class.c`, `src/obj.c` and `src/niftyprefs.c`, together with theorems
settling the specification claims about them.

Modelling conventions:
* C pointers to host objects are `Nat`, with `0` playing the role of `NULL`.
* C function pointers (the `toObj` / `fromObj` callbacks of a class) are
  `Option Nat`: `none` is a `NULL` function pointer, `some i` indexes into a
  `CallbackEnv` that supplies the host-provided callback implementations.
  Callbacks are pure: they may read the context but the engine threads all
  registry state explicitly.
* Reaching undefined behaviour (dereferencing a `NULL` class pointer, calling
  a `NULL` function pointer) is modelled by the `Outcome.crash` constructor;
  a normal return (including a `NULL` / failure return value) is `Outcome.ok`.
* C strings are Lean `String`s; `strncpy(dst, src, 64)` into the zeroed
  65-byte `name` buffer keeps exactly the first 64 characters.
-/

namespace Niftyprefs

/-! ### Generic first-match scan

Each C `for(i=0; i<len; i++) if(test(a[i])) return i;` loop is translated by
this structurally recursive scan returning the first matching index. -/

def scanFirstIdx {β : Type} (pred : β → Bool) : List β → Option Nat
  | [] => none
  | x :: rest => if pred x then some 0 else (scanFirstIdx pred rest).map (· + 1)

/-! ### Slot array

Modelled from the spec: the `nft_array` slot-array module (`nft_array_init`,
`nft_array_slot_alloc`, `nft_array_slot_free`, `nft_array_get_element`,
`nft_array_find_slot`, `nft_array_foreach_element`, `nft_array_deinit`) is
called by `class.c` / `obj.c` but its source is not under `src/`.  Spec §4.1
(SlotArray): an ordered sequence of fixed-size slots, each free or occupied;
`allocate` scans for the first free slot and, when none exists, grows storage
by a fixed 64-slot block of zero-initialised (free) slots; `free` zeroes the
slot and marks it free; `get` is bounds-checked; `find` is a linear scan over
occupied slots; `deinit` releases the storage.  A slot array over elements of
type `α` is a list of `Option α`: `none` is a free slot, `some x` an occupied
slot holding `x`. -/

abbrev Slots (α : Type) := List (Option α)

/-- First free slot index, if any (the `allocate` scan of spec §4.1). -/
def findNoneIdx {α : Type} : Slots α → Option Nat
  | [] => none
  | none :: _ => some 0
  | some _ :: rest => (findNoneIdx rest).map (· + 1)

/-- First occupied slot whose element satisfies `pred` (`nft_array_find_slot`):
a linear scan over the occupied slots. -/
def findSlotIdx {α : Type} (pred : α → Bool) : Slots α → Option Nat
  | [] => none
  | none :: rest => (findSlotIdx pred rest).map (· + 1)
  | some x :: rest => if pred x then some 0 else (findSlotIdx pred rest).map (· + 1)

/-- Modelled from the spec: `nft_array_slot_alloc` takes the first free slot,
growing the storage by a 64-slot zeroed block when no slot is free; the taken
slot becomes occupied holding the zeroed element `z`. -/
def nft_array_slot_alloc {α : Type} (l : Slots α) (z : α) : Slots α × Nat :=
  match findNoneIdx l with
  | some i => (l.set i (some z), i)
  | none => ((l ++ List.replicate 64 none).set l.length (some z), l.length)

/-- Modelled from the spec: `nft_array_slot_free` zeroes the slot and marks it
free for future allocations. -/
def nft_array_slot_free {α : Type} (l : Slots α) (i : Nat) : Slots α :=
  l.set i none

/-- Modelled from the spec: bounds-checked `nft_array_get_element` (a free or
out-of-range slot yields nothing). -/
def nft_array_get_element {α : Type} (l : Slots α) (i : Nat) : Option α :=
  l.getD i none

/-- Writing through the element pointer returned by `nft_array_get_element`. -/
def nft_array_set_element {α : Type} (l : Slots α) (i : Nat) (x : α) : Slots α :=
  l.set i (some x)

/-- Modelled from the spec: `nft_array_deinit` releases the slot storage. -/
def nft_array_deinit {α : Type} (_l : Slots α) : Slots α := []

/-- The `nft_array_foreach_element` loop of `prefs_class_free` with the
`_obj_free` visitor: every occupied slot is freed (`prefs_obj_free` frees the
visited object's slot in the very array being traversed). -/
def nft_array_free_all {α : Type} (l : Slots α) : Slots α :=
  l.map (fun _ => none)

/-- Occupied slots of an array, with their indices, in index order. -/
def occupiedFrom {α : Type} : Nat → Slots α → List (Nat × α)
  | _, [] => []
  | i, none :: rest => occupiedFrom (i + 1) rest
  | i, some x :: rest => (i, x) :: occupiedFrom (i + 1) rest

def occupied {α : Type} (l : Slots α) : List (Nat × α) :=
  occupiedFrom 0 l

/-! ### Data model (`struct _NftPrefsObj`, `struct _NftPrefsClass`,
`struct _NftPrefs` of `obj.c` / `class.c`) -/

/-- A preference node (`NftPrefsNode` = `xmlNode`): a tag plus the attribute
payload the callbacks read and write; the external libxml collaborator is
modelled only at this interface. -/
structure Node where
  name : String
  attrs : List (String × String)
deriving DecidableEq, Repr

/-- `struct _NftPrefsObj` (obj.c): object pointer, back-reference to the
owning class (its slot in the class array models the `klass` pointer) and the
handle's own slot inside that class's object array. -/
structure NftPrefsObj where
  object : Nat
  klassSlot : Nat
  slot : Nat
deriving DecidableEq, Repr

/-- `struct _NftPrefsClass` (class.c): name buffer, the two nullable callback
pointers and the per-class object slot array. -/
structure NftPrefsClass where
  name : String
  toObj : Option Nat
  fromObj : Option Nat
  objects : Slots NftPrefsObj
deriving DecidableEq, Repr

/-- `struct _NftPrefs`: the context owning the class slot array (the transient
`xmlDoc` plays no role in the claims under study). -/
structure NftPrefs where
  classes : Slots NftPrefsClass
deriving DecidableEq, Repr

/-- A zeroed `NftPrefsObj` element (freshly allocated slots are zero-filled). -/
def zeroObj : NftPrefsObj := ⟨0, 0, 0⟩

/-- A zeroed `NftPrefsClass` element. -/
def zeroClass : NftPrefsClass := ⟨"", none, none, []⟩

/-- An empty context, as produced by `nft_prefs_init`. -/
def emptyPrefs : NftPrefs := ⟨[]⟩

/-- Host-supplied callback implementations, indexed by the `Nat` standing for
the C function pointer.  `toObjImpl i p node userptr = (result, written)`
models `NftPrefsToObjFunc`: `result` is the returned `NftResult` and `written`
the value deposited in `*newObj` (the engine initialises it to `0`, so a
callback that writes nothing returns `0`).  `fromObjImpl i p node obj userptr`
models `NftPrefsFromObjFunc`: `some n` is success with the filled node `n`,
`none` is failure. -/
structure CallbackEnv where
  toObjImpl : Nat → NftPrefs → Node → Nat → Bool × Nat
  fromObjImpl : Nat → NftPrefs → Node → Nat → Nat → Option Node

/-- Result of running an engine entry point: `ok v` is a normal return with
value `v` (which may itself encode a `NULL`/failure return), `crash` marks
that execution reached undefined behaviour (a `NULL`-pointer dereference or a
call through a `NULL` function pointer). -/
inductive Outcome (α : Type) where
  | ok : α → Outcome α
  | crash : Outcome α
deriving DecidableEq, Repr

/-- The 64-character truncating copy `strncpy(n->name, className,
NFT_PREFS_MAX_CLASSNAME)` into the zeroed 65-byte name buffer. -/
def strncpyName (s : String) : String := ⟨s.data.take 64⟩

/-! ### class.c -/

/-- `prefs_class_find_by_name` (class.c): `nft_array_find_slot` with the
`_class_find_by_name` finder (`strcmp(c->name, name) == 0`), followed by
`nft_array_get_element`; yields the slot together with the element read
through the returned pointer. -/
def prefs_class_find_by_name (classes : Slots NftPrefsClass) (name : String) :
    Option (Nat × NftPrefsClass) :=
  match findSlotIdx (fun c => c.name == name) classes with
  | none => none
  | some s => (nft_array_get_element classes s).map (fun c => (s, c))

/-- `nft_prefs_class_register` (class.c).  `objInitOk` models whether
`prefs_obj_init_array` (resource allocation in the external array module)
succeeds; all other steps are deterministic.  Returns the `NftResult` and the
resulting context. -/
def nft_prefs_class_register (p : NftPrefs) (className : String)
    (toObj fromObj : Option Nat) (objInitOk : Bool) : Bool × NftPrefs :=
  if className.length = 0 then (false, p)
  else
    match prefs_class_find_by_name p.classes className with
    | some _ => (false, p)
    | none =>
      let a := nft_array_slot_alloc p.classes zeroClass
      match nft_array_get_element a.1 a.2 with
      | none => (false, ⟨nft_array_slot_free a.1 a.2⟩)
      | some n =>
        let n1 : NftPrefsClass :=
          { n with name := strncpyName className, toObj := toObj, fromObj := fromObj }
        if objInitOk then
          (true, ⟨nft_array_set_element a.1 a.2 { n1 with objects := [] }⟩)
        else
          (false, ⟨nft_array_slot_free (nft_array_set_element a.1 a.2 n1) a.2⟩)

/-- `prefs_class_free` (class.c): frees every registered object handle of the
class (the foreach loop with `_obj_free`), deinitialises the object array and
invalidates the descriptor (`name[0] = '\0'`, callbacks `NULL`).  The class's
own slot in the class array is not released. -/
def prefs_class_free (c : NftPrefsClass) : NftPrefsClass :=
  { name := "", toObj := none, fromObj := none,
    objects := nft_array_deinit (nft_array_free_all c.objects) }

/-- `nft_prefs_class_unregister` (class.c): name lookup, then
`prefs_class_free` on the found descriptor; a miss is a logged no-op. -/
def nft_prefs_class_unregister (p : NftPrefs) (className : String) : NftPrefs :=
  match prefs_class_find_by_name p.classes className with
  | none => p
  | some sc => ⟨nft_array_set_element p.classes sc.1 (prefs_class_free sc.2)⟩

/-! ### obj.c -/

/-- `nft_prefs_obj_register` (obj.c): rejects a `NULL` object, resolves the
class (here with the correct `!(c = ...)` null test), allocates a slot in the
class's object array and fills the handle. -/
def nft_prefs_obj_register (p : NftPrefs) (className : String) (obj : Nat) :
    Bool × NftPrefs :=
  if obj = 0 then (false, p)
  else
    match prefs_class_find_by_name p.classes className with
    | none => (false, p)
    | some sc =>
      let a := nft_array_slot_alloc sc.2.objects zeroObj
      match nft_array_get_element a.1 a.2 with
      | none =>
        (false, ⟨nft_array_set_element p.classes sc.1
          { sc.2 with objects := nft_array_slot_free a.1 a.2 }⟩)
      | some _ =>
        (true, ⟨nft_array_set_element p.classes sc.1
          { sc.2 with objects :=
              nft_array_set_element a.1 a.2 ⟨obj, sc.1, a.2⟩ }⟩)

/-- `prefs_obj_find_by_ptr` (obj.c).  The source tests
`if(nft_array_find_slot(array, &slot, _obj_find_by_ptr, obj, NULL))` — the
branch taken on find-slot SUCCESS logs "Object %p not found" and returns
`NULL`, while on a genuine miss the uninitialised local `slot` is passed to
`nft_array_get_element`; `junk` models that indeterminate stack value. -/
def prefs_obj_find_by_ptr (objs : Slots NftPrefsObj) (obj : Nat) (junk : Nat) :
    Option NftPrefsObj :=
  match findSlotIdx (fun o => o.object == obj) objs with
  | some _ => none
  | none => nft_array_get_element objs junk

/-- `prefs_obj_free` (obj.c): releases the handle's slot inside its class's
object array (located through the `klass` back-pointer) and zeroes the
descriptor. -/
def prefs_obj_free_at (p : NftPrefs) (o : NftPrefsObj) : NftPrefs :=
  match nft_array_get_element p.classes o.klassSlot with
  | none => p
  | some c => ⟨nft_array_set_element p.classes o.klassSlot
      { c with objects := nft_array_slot_free c.objects o.slot }⟩

/-- `nft_prefs_obj_unregister` (obj.c).  The class-lookup result is compared
with `< 0`, which never holds for a pointer, so execution always continues;
with a `NULL` class the null-checked getters `prefs_class_objects` and
`prefs_obj_find_by_ptr` bail out and the call is a no-op. -/
def nft_prefs_obj_unregister (p : NftPrefs) (className : String) (obj : Nat)
    (junk : Nat) : NftPrefs :=
  if obj = 0 then p
  else
    match prefs_class_find_by_name p.classes className with
    | none => p
    | some sc =>
      match prefs_obj_find_by_ptr sc.2.objects obj junk with
      | none => p
      | some o => prefs_obj_free_at p o

/-- `nft_prefs_obj_to_node` (obj.c).  The `< 0` test on the class-lookup
result never fires, so an unknown class falls through to
`prefs_class_fromObj(c)` which dereferences the `NULL` class pointer: `crash`.
Otherwise an empty node tagged with the class name is created
(`xmlNewNode` + `xmlNodeSetName`) and the class's `fromObj` callback is
invoked through the stored pointer with no null check — a `NULL` callback is
a call through a `NULL` function pointer: `crash`. -/
def nft_prefs_obj_to_node (env : CallbackEnv) (p : NftPrefs)
    (className : String) (obj : Nat) (userptr : Nat) : Outcome (Option Node) :=
  if obj = 0 then .ok none
  else
    match prefs_class_find_by_name p.classes className with
    | none => .crash
    | some sc =>
      let node : Node := ⟨className, []⟩
      match sc.2.fromObj with
      | none => .crash
      | some fi => .ok (env.fromObjImpl fi p node obj userptr)

/-- `nft_prefs_obj_from_node` (obj.c).  The `< 0` test on the class-lookup
result never fires (unknown class: `prefs_class_toObj` dereferences `NULL`);
a `NULL` `toObj` pointer is called unchecked.  The callback's `NftResult` is
only logged — execution continues either way — and whatever the callback
deposited in `*result` (initialised to `NULL`) is registered and returned. -/
def nft_prefs_obj_from_node (env : CallbackEnv) (p : NftPrefs) (n : Node)
    (userptr : Nat) : Outcome (Nat × NftPrefs) :=
  match prefs_class_find_by_name p.classes n.name with
  | none => .crash
  | some sc =>
    match sc.2.toObj with
    | none => .crash
    | some ti =>
      let r := env.toObjImpl ti p n userptr
      let reg := nft_prefs_obj_register p n.name r.2
      .ok (r.2, reg.2)

/-- True when `obj` is currently registered under class `className` in `p`
(the lookup `nft_prefs_obj_register` / `_obj_find_by_ptr` would perform). -/
def objRegistered (p : NftPrefs) (className : String) (obj : Nat) : Bool :=
  match prefs_class_find_by_name p.classes className with
  | none => false
  | some sc => (findSlotIdx (fun o => o.object == obj) sc.2.objects).isSome

/-! ### niftyprefs.c: the flat object slot array

`_obj_find_free` and `_obj_clear` of `niftyprefs.c` implement the object slot
storage directly: a slot is free when its `object` and `node` pointers are
`NULL` and its class name is empty; when no free slot exists the list grows
by `NFT_PREFS_OBJBUF_INC = 64` zeroed entries; `_obj_clear` zeroes a slot and
decrements the count.  The class-existence gate of `nft_prefs_obj_register`
(an orthogonal lookup in the class list) is assumed to pass. -/

structure LegacyObj where
  node : Nat
  object : Nat
  className : String
deriving DecidableEq, Repr

def legacyZero : LegacyObj := ⟨0, 0, ""⟩

/-- The free-slot test of `_obj_find_free`:
`!object && !node && className[0] == '\0'`. -/
def legacyIsFree (r : LegacyObj) : Bool :=
  r.object == 0 && r.node == 0 && r.className == ""

/-- The object list together with `obj_count` (`obj_list_length` is the
list's length). -/
structure LegacyObjs where
  objects : List LegacyObj
  objCount : Nat
deriving DecidableEq, Repr

def legacyFresh : LegacyObjs := ⟨[], 0⟩

/-- `_obj_find_free` (niftyprefs.c): grow by 64 zeroed entries when
`obj_list_length <= obj_count`, then scan for the first free slot. -/
def legacyObjFindFree (s : LegacyObjs) : LegacyObjs × Option Nat :=
  let objects :=
    if s.objects.length ≤ s.objCount
    then s.objects ++ List.replicate 64 legacyZero
    else s.objects
  (⟨objects, s.objCount⟩, scanFirstIdx legacyIsFree objects)

/-- The slot-array part of `nft_prefs_obj_register` (niftyprefs.c): find a
free slot, fill it (`node = NULL`, the object pointer, the truncated class
name) and count it.  Also returns the slot index taken. -/
def legacyObjRegister (className : String) (obj : Nat) (s : LegacyObjs) :
    LegacyObjs × Option Nat :=
  if obj = 0 then (s, none)
  else
    match legacyObjFindFree s with
    | (s1, none) => (s1, none)
    | (s1, some i) =>
      (⟨s1.objects.set i ⟨0, obj, strncpyName className⟩, s1.objCount + 1⟩,
       some i)

/-- `_obj_clear` (niftyprefs.c): zero the slot, decrement the count. -/
def legacyObjClear (s : LegacyObjs) (i : Nat) : LegacyObjs :=
  ⟨s.objects.set i legacyZero, s.objCount - 1⟩

/-- `nft_prefs_obj_unregister` (niftyprefs.c): `_obj_find_by_ptr` linear scan
by pointer identity, then `_obj_clear`; a miss is a no-op. -/
def legacyObjUnregister (obj : Nat) (s : LegacyObjs) : LegacyObjs :=
  if obj = 0 then s
  else
    match scanFirstIdx (fun r => r.object == obj) s.objects with
    | none => s
    | some i => legacyObjClear s i

/-- Register a list of objects in order, collecting the slot indices taken. -/
def legacyRegisterAll (className : String) :
    List Nat → LegacyObjs → LegacyObjs × List Nat
  | [], s => (s, [])
  | o :: rest, s =>
    match legacyObjRegister className o s with
    | (s1, none) => legacyRegisterAll className rest s1
    | (s1, some i) =>
      let r := legacyRegisterAll className rest s1
      (r.1, i :: r.2)

/-- Unregister a list of objects in order. -/
def legacyUnregisterAll (objs : List Nat) (s : LegacyObjs) : LegacyObjs :=
  objs.foldl (fun t o => legacyObjUnregister o t) s

/-- One registry operation on the flat object array, for lifetime
statements. -/
inductive LegacyOp where
  | reg : String → Nat → LegacyOp
  | unreg : Nat → LegacyOp

def legacyApply (op : LegacyOp) (s : LegacyObjs) : LegacyObjs :=
  match op with
  | .reg cn o => (legacyObjRegister cn o s).1
  | .unreg o => legacyObjUnregister o s

def legacyApplyAll (ops : List LegacyOp) (s : LegacyObjs) : LegacyObjs :=
  ops.foldl (fun t op => legacyApply op t) s

/-- The record `nft_prefs_obj_register` (niftyprefs.c) writes into a free
slot: `node = NULL`, the object pointer, the truncated class name. -/
def legacyRec (className : String) (o : Nat) : LegacyObj :=
  ⟨0, o, strncpyName className⟩

/-- Slot content of the flat array after the pointers listed in `w` have been
cleared again: a cleared slot is zeroed, the others hold their record. -/
def maskRec (className : String) (w : List Nat) (o : Nat) : LegacyObj :=
  if o ∈ w then legacyZero else legacyRec className o

/-- Free-slot count left in the flat array after one allocation: a full array
first grows by the 64-slot block. -/
def padStep (m : Nat) : Nat := (if m = 0 then 64 else m) - 1

/-- Free-slot count left after `k` successive allocations. -/
def padAfter (m : Nat) : Nat → Nat
  | 0 => m
  | k + 1 => padAfter (padStep m) k

/-! ### Concrete scenarios used by the closed theorems -/

/-- A context with one class `"f"` whose `fromObj` callback pointer is slot
`0` of the callback environment. -/
def pClassF : NftPrefs := (nft_prefs_class_register emptyPrefs "f" none (some 0) true).2

/-- A context with one class `"c"` whose `toObj` callback pointer is slot `0`
of the callback environment. -/
def pClassC : NftPrefs := (nft_prefs_class_register emptyPrefs "c" (some 0) none true).2

/-- `pClassC` with the object pointer `7` registered under class `"c"`. -/
def pObj7 : NftPrefs := (nft_prefs_obj_register pClassC "c" 7).2

/-- A callback environment whose every `toObj` callback fails without writing
a result and whose every `fromObj` callback fails. -/
def envFail : CallbackEnv := ⟨fun _ _ _ _ => (false, 0), fun _ _ _ _ _ => none⟩

/-- A callback environment whose `toObj` callbacks return `NFT_FAILURE` but
deposit the non-`NULL` object pointer `5` in `*newObj` before failing. -/
def envFailWrite5 : CallbackEnv := ⟨fun _ _ _ _ => (false, 5), fun _ _ _ _ _ => none⟩

/-- A context with classes `"A"` (holding objects `10` and `11`) and `"B"`
(holding object `20`). -/
def pAB : NftPrefs :=
  (nft_prefs_obj_register
    (nft_prefs_obj_register
      (nft_prefs_obj_register
        (nft_prefs_class_register
          (nft_prefs_class_register emptyPrefs "A" none (some 0) true).2
          "B" none (some 1) true).2
        "A" 10).2
      "A" 11).2
    "B" 20).2

/-- A 65-character class name: 64 times `'a'` followed by `'b'`. -/
def longNameB : String := (String.mk (List.replicate 64 'a')).push 'b'

/-- A distinct 65-character class name sharing the first 64 characters with
`longNameB`: 64 times `'a'` followed by `'c'`. -/
def longNameC : String := (String.mk (List.replicate 64 'a')).push 'c'

/-- A context in which `longNameB` has been registered. -/
def pLong : NftPrefs := (nft_prefs_class_register emptyPrefs longNameB none none true).2

/-! ## Theorems -/

/-! ### Auxiliary lemmas about the scan loops and slot arrays -/

theorem scanFirstIdx_cons {β : Type} (pred : β → Bool) (x : β) (rest : List β) :
    scanFirstIdx pred (x :: rest) =
      if pred x then some 0 else (scanFirstIdx pred rest).map (· + 1) := rfl

theorem scanFirstIdx_none_of {β : Type} (pred : β → Bool) (l : List β)
    (h : ∀ x ∈ l, pred x = false) : scanFirstIdx pred l = none := by
  induction l with
  | nil => rfl
  | cons x rest ih =>
    have hx : pred x = false := h x (List.mem_cons_self x rest)
    simp [scanFirstIdx, hx, ih fun y hy => h y (List.mem_cons_of_mem x hy)]

theorem scanFirstIdx_found {β : Type} (pred : β → Bool) (l : List β) (i : Nat)
    (d : β) (h : scanFirstIdx pred l = some i) :
    i < l.length ∧ pred (l.getD i d) = true := by
  induction l generalizing i with
  | nil => simp [scanFirstIdx] at h
  | cons x rest ih =>
    cases hx : pred x with
    | true =>
      simp only [scanFirstIdx_cons, hx, if_true, Option.some.injEq] at h
      subst h
      simpa using hx
    | false =>
      simp only [scanFirstIdx_cons, hx, Bool.false_eq_true, if_false,
        Option.map_eq_some'] at h
      obtain ⟨j, hj, hji⟩ := h
      subst hji
      obtain ⟨h1, h2⟩ := ih j hj
      exact ⟨by simpa using Nat.succ_lt_succ h1, by simpa using h2⟩

theorem findSlotIdx_append_none {α : Type} (pred : α → Bool) (l1 l2 : Slots α)
    (h : findSlotIdx pred l1 = none) :
    findSlotIdx pred (l1 ++ l2) = (findSlotIdx pred l2).map (· + l1.length) := by
  induction l1 with
  | nil => cases c : findSlotIdx pred l2 <;> simp [c]
  | cons x rest ih =>
    cases x with
    | none =>
      have h2 : findSlotIdx pred rest = none := by
        have hm : (findSlotIdx pred rest).map (· + 1) = none := h
        exact Option.map_eq_none'.mp hm
      have step : findSlotIdx pred ((none :: rest) ++ l2) =
          (findSlotIdx pred (rest ++ l2)).map (· + 1) := rfl
      rw [step, ih h2]
      cases c : findSlotIdx pred l2 with
      | none => simp
      | some j =>
        simp only [c, Option.map_some', List.length_cons, Option.some.injEq]
        omega
    | some y =>
      have hy : pred y = false := by
        cases hy2 : pred y
        · rfl
        · simp [findSlotIdx, hy2] at h
      have h2 : findSlotIdx pred rest = none := by
        simpa [findSlotIdx, hy] using h
      have step : findSlotIdx pred ((some y :: rest) ++ l2) =
          (findSlotIdx pred (rest ++ l2)).map (· + 1) := by
        simp [findSlotIdx, hy]
      rw [step, ih h2]
      cases c : findSlotIdx pred l2 with
      | none => simp
      | some j =>
        simp only [c, Option.map_some', List.length_cons, Option.some.injEq]
        omega

theorem findSlotIdx_replicate_none {α : Type} (pred : α → Bool) (k : Nat) :
    findSlotIdx pred (List.replicate k (none : Option α)) = none := by
  induction k with
  | zero => rfl
  | succ k2 ih => simp [List.replicate_succ, findSlotIdx, ih]

theorem findSlotIdx_found {α : Type} (pred : α → Bool) (l : Slots α) (i : Nat)
    (h : findSlotIdx pred l = some i) :
    i < l.length ∧ ∃ c, l.getD i none = some c ∧ pred c = true := by
  induction l generalizing i with
  | nil => simp [findSlotIdx] at h
  | cons x rest ih =>
    cases x with
    | none =>
      simp only [findSlotIdx, Option.map_eq_some'] at h
      obtain ⟨j, hj, hji⟩ := h
      subst hji
      obtain ⟨h1, c, hc, hpc⟩ := ih j hj
      exact ⟨by simpa using Nat.succ_lt_succ h1, c, by simpa using hc, hpc⟩
    | some y =>
      cases hy : pred y with
      | true =>
        simp only [findSlotIdx, hy, if_true, Option.some.injEq] at h
        subst h
        exact ⟨by simp, y, rfl, hy⟩
      | false =>
        simp only [findSlotIdx, hy, Bool.false_eq_true, if_false,
          Option.map_eq_some'] at h
        obtain ⟨j, hj, hji⟩ := h
        subst hji
        obtain ⟨h1, c, hc, hpc⟩ := ih j hj
        exact ⟨by simpa using Nat.succ_lt_succ h1, c, by simpa using hc, hpc⟩

theorem findNoneIdx_found {α : Type} (l : Slots α) (i : Nat)
    (h : findNoneIdx l = some i) : i < l.length ∧ l.getD i none = none := by
  induction l generalizing i with
  | nil => simp [findNoneIdx] at h
  | cons x rest ih =>
    cases x with
    | none =>
      simp only [findNoneIdx, Option.some.injEq] at h
      subst h
      simp
    | some y =>
      simp only [findNoneIdx, Option.map_eq_some'] at h
      obtain ⟨j, hj, hji⟩ := h
      subst hji
      obtain ⟨h1, h2⟩ := ih j hj
      exact ⟨by simpa using Nat.succ_lt_succ h1, by simpa using h2⟩

theorem getD_set_self {β : Type} (l : List β) (i : Nat) (x d : β)
    (h : i < l.length) : (l.set i x).getD i d = x := by
  induction l generalizing i with
  | nil => simp at h
  | cons y rest ih =>
    cases i with
    | zero => rfl
    | succ j => simpa using ih j (by simpa using h)

theorem getD_set_ne {β : Type} (l : List β) (i j : Nat) (x d : β)
    (h : j ≠ i) : (l.set i x).getD j d = l.getD j d := by
  induction l generalizing i j with
  | nil => rfl
  | cons y rest ih =>
    cases i with
    | zero =>
      cases j with
      | zero => exact absurd rfl h
      | succ j2 => rfl
    | succ i2 =>
      cases j with
      | zero => rfl
      | succ j2 => simpa using ih i2 j2 (fun he => h (by rw [he]))

theorem set_none_noop {α : Type} (l : Slots α) (i : Nat)
    (h : l.getD i none = none) : l.set i none = l := by
  induction l generalizing i with
  | nil => rfl
  | cons y rest ih =>
    cases i with
    | zero => simp_all
    | succ j => simpa using ih j (by simpa using h)

theorem set_append_length {β : Type} (l1 : List β) (x y : β) (l2 : List β) :
    (l1 ++ y :: l2).set l1.length x = l1 ++ x :: l2 := by
  induction l1 with
  | nil => rfl
  | cons z rest ih => simp [ih]

theorem getD_append_length {β : Type} (l1 : List β) (y d : β) (l2 : List β) :
    (l1 ++ y :: l2).getD l1.length d = y := by
  induction l1 with
  | nil => rfl
  | cons z rest ih => simpa using ih

theorem occupiedFrom_append_replicate {α : Type} (l : Slots α) (k : Nat) :
    ∀ i, occupiedFrom i (l ++ List.replicate k (none : Option α)) =
      occupiedFrom i l := by
  induction l with
  | nil =>
    intro i
    induction k generalizing i with
    | zero => rfl
    | succ k2 ih => simpa [occupiedFrom, List.replicate_succ] using ih (i + 1)
  | cons x rest ih =>
    intro i
    cases x with
    | none => simpa [occupiedFrom] using ih (i + 1)
    | some y => simpa [occupiedFrom] using ih (i + 1)

theorem occupied_append_replicate {α : Type} (l : Slots α) (k : Nat) :
    occupied (l ++ List.replicate k (none : Option α)) = occupied l :=
  occupiedFrom_append_replicate l k 0

theorem alloc_get {α : Type} (l : Slots α) (z : α) :
    nft_array_get_element (nft_array_slot_alloc l z).1 (nft_array_slot_alloc l z).2 =
      some z := by
  unfold nft_array_slot_alloc nft_array_get_element
  cases hf : findNoneIdx l with
  | some i =>
    have hi := (findNoneIdx_found l i hf).1
    exact getD_set_self l i (some z) none hi
  | none =>
    have hlen : l.length < (l ++ List.replicate 64 (none : Option α)).length := by
      simp
    exact getD_set_self _ l.length (some z) none hlen

theorem find_by_name_some_elim (classes : Slots NftPrefsClass) (nm : String)
    (sc : Nat × NftPrefsClass)
    (h : prefs_class_find_by_name classes nm = some sc) :
    sc.1 < classes.length ∧ classes.getD sc.1 none = some sc.2 ∧ sc.2.name = nm := by
  unfold prefs_class_find_by_name at h
  cases hs : findSlotIdx (fun c => c.name == nm) classes with
  | none => rw [hs] at h; simp at h
  | some s =>
    rw [hs] at h
    dsimp only at h
    obtain ⟨hlt, c, hc, hpc⟩ := findSlotIdx_found _ classes s hs
    unfold nft_array_get_element at h
    rw [hc] at h
    simp only [Option.map_some', Option.some.injEq] at h
    subst h
    exact ⟨hlt, hc, eq_of_beq hpc⟩

theorem find_by_name_none_iff (classes : Slots NftPrefsClass) (nm : String) :
    prefs_class_find_by_name classes nm = none ↔
      findSlotIdx (fun c => c.name == nm) classes = none := by
  constructor
  · intro h
    cases hs : findSlotIdx (fun c => c.name == nm) classes with
    | none => rfl
    | some s =>
      obtain ⟨hlt, c, hc, hpc⟩ := findSlotIdx_found _ classes s hs
      unfold prefs_class_find_by_name at h
      rw [hs] at h
      dsimp only at h
      unfold nft_array_get_element at h
      rw [hc] at h
      simp at h
  · intro h
    unfold prefs_class_find_by_name
    rw [h]

theorem findSlotIdx_set_free {α : Type} (pred : α → Bool) (l : Slots α)
    (i : Nat) (x : α) (hfree : findNoneIdx l = some i)
    (h : findSlotIdx pred l = none) :
    findSlotIdx pred (l.set i (some x)) = if pred x then some i else none := by
  induction l generalizing i with
  | nil => simp [findNoneIdx] at hfree
  | cons y rest ih =>
    cases y with
    | none =>
      have hi : i = 0 := by
        simp only [findNoneIdx, Option.some.injEq] at hfree
        omega
      subst hi
      have hrest : findSlotIdx pred rest = none := by
        simpa [findSlotIdx] using h
      cases hx : pred x with
      | true => simp [findSlotIdx, hx]
      | false => simp [findSlotIdx, hx, hrest]
    | some w =>
      have hw : pred w = false := by
        cases hw2 : pred w
        · rfl
        · simp [findSlotIdx, hw2] at h
      have hrest : findSlotIdx pred rest = none := by
        simpa [findSlotIdx, hw] using h
      obtain ⟨j, hj, hji⟩ : ∃ j, findNoneIdx rest = some j ∧ j + 1 = i := by
        simpa [findNoneIdx, Option.map_eq_some'] using hfree
      subst hji
      have key := ih j hj hrest
      cases hx : pred x with
      | true =>
        simp only [hx, if_true] at key
        simp [List.set_cons_succ, findSlotIdx, hw, key, hx]
      | false =>
        simp only [hx, Bool.false_eq_true, if_false] at key
        simp [List.set_cons_succ, findSlotIdx, hw, key, hx]

theorem findSlotIdx_alloc_set {α : Type} (pred : α → Bool) (l : Slots α)
    (z x : α) (h : findSlotIdx pred l = none) :
    findSlotIdx pred
        ((nft_array_slot_alloc l z).1.set (nft_array_slot_alloc l z).2 (some x)) =
      if pred x then some (nft_array_slot_alloc l z).2 else none := by
  unfold nft_array_slot_alloc
  cases hf : findNoneIdx l with
  | some i =>
    dsimp only
    rw [List.set_set]
    exact findSlotIdx_set_free pred l i x hf h
  | none =>
    dsimp only
    rw [List.set_set]
    have h64 : (List.replicate 64 (none : Option α)) =
        none :: List.replicate 63 none := rfl
    rw [h64, set_append_length]
    rw [findSlotIdx_append_none pred l (some x :: List.replicate 63 none) h]
    cases hx : pred x with
    | true => simp [findSlotIdx, hx]
    | false => simp [findSlotIdx, hx, findSlotIdx_replicate_none]

/-! ### Claim C4 -/

/-- Claim C4 (confirmed).  `nft_prefs_class_register` fails when the class
name is empty or already present (case-sensitive exact match), and on such a
failure the whole context — the registry and in particular the existing
descriptor of that name — is returned unchanged. -/
theorem C4_class_register_rejects (p : NftPrefs) (cn : String)
    (toObj fromObj : Option Nat) (objInitOk : Bool)
    (h : cn = "" ∨ (prefs_class_find_by_name p.classes cn).isSome = true) :
    nft_prefs_class_register p cn toObj fromObj objInitOk = (false, p) := by
  rcases h with h | h
  · subst h; rfl
  · obtain ⟨x, hx⟩ := Option.isSome_iff_exists.mp h
    unfold nft_prefs_class_register
    rw [hx]
    split <;> rfl

/-- Witness for C4 at a concrete input: class `"c"` is present in `pClassC`,
and re-registering it fails and leaves the context untouched. -/
theorem C4_witness :
    ((("c" : String) = "" ∨ (prefs_class_find_by_name pClassC.classes "c").isSome = true) ∧
     nft_prefs_class_register pClassC "c" none none true = (false, pClassC)) :=
  ⟨Or.inr (by decide),
   C4_class_register_rejects pClassC "c" none none true (Or.inr (by decide))⟩

/-! ### Claims C8 and C10 -/

/-- Claim C8 (confirmed).  For a registered class whose `fromObj` callback
pointer is non-`NULL` and a non-`NULL` object, `nft_prefs_obj_to_node`
creates a fresh node tagged with the class name, invokes the class's
from-object callback on the context, that node, the object and the user
pointer, and returns exactly the callback's result: the filled node on
callback success, and a `NULL` (no node for the caller, the partial node
discarded) on callback failure. -/
theorem C8_to_node_runs_callback (env : CallbackEnv) (p : NftPrefs)
    (cn : String) (obj userptr : Nat) (s : Nat) (c : NftPrefsClass) (fi : Nat)
    (hobj : obj ≠ 0)
    (hfind : prefs_class_find_by_name p.classes cn = some (s, c))
    (hcb : c.fromObj = some fi) :
    nft_prefs_obj_to_node env p cn obj userptr =
      Outcome.ok (env.fromObjImpl fi p ⟨cn, []⟩ obj userptr) := by
  unfold nft_prefs_obj_to_node
  rw [if_neg hobj, hfind]
  simp only
  rw [hcb]

/-- Witness for C8 at a concrete input: class `"f"` of `pClassF` with
callback slot `0` and object `1`. -/
theorem C8_witness :
    ((1 : Nat) ≠ 0 ∧
     prefs_class_find_by_name pClassF.classes "f" =
       some (0, ⟨"f", none, some 0, []⟩) ∧
     (⟨"f", none, some 0, []⟩ : NftPrefsClass).fromObj = some 0) ∧
    nft_prefs_obj_to_node envFail pClassF "f" 1 2 =
      Outcome.ok (envFail.fromObjImpl 0 pClassF ⟨"f", []⟩ 1 2) :=
  ⟨⟨by decide, by decide, rfl⟩,
   C8_to_node_runs_callback envFail pClassF "f" 1 2 0 ⟨"f", none, some 0, []⟩ 0
     (by decide) (by decide) rfl⟩

/-- Claim C10 (confirmed).  Class registration accepts a `NULL` `fromObj`
callback, but `nft_prefs_obj_to_node` invokes the stored pointer without any
null check: for a class whose `fromObj` is `NULL` the call reaches an
unguarded invocation of a `NULL` function pointer (undefined behaviour,
`Outcome.crash`) instead of returning failure. -/
theorem C10_null_fromObj_crashes (env : CallbackEnv) (p : NftPrefs)
    (cn : String) (obj userptr : Nat) (s : Nat) (c : NftPrefsClass)
    (hobj : obj ≠ 0)
    (hfind : prefs_class_find_by_name p.classes cn = some (s, c))
    (hcb : c.fromObj = none) :
    nft_prefs_obj_to_node env p cn obj userptr = Outcome.crash := by
  unfold nft_prefs_obj_to_node
  rw [if_neg hobj, hfind]
  simp only
  rw [hcb]

/-- Witness for C10 at a concrete input: class `"c"` of `pClassC` was
registered with a `NULL` `fromObj` callback. -/
theorem C10_witness :
    ((1 : Nat) ≠ 0 ∧
     prefs_class_find_by_name pClassC.classes "c" =
       some (0, ⟨"c", some 0, none, []⟩) ∧
     (⟨"c", some 0, none, []⟩ : NftPrefsClass).fromObj = none) ∧
    nft_prefs_obj_to_node envFail pClassC "c" 1 2 = Outcome.crash :=
  ⟨⟨by decide, by decide, rfl⟩,
   C10_null_fromObj_crashes envFail pClassC "c" 1 2 0 ⟨"c", some 0, none, []⟩
     (by decide) (by decide) rfl⟩

/-! ### More slot-array lemmas, for C5, C7 and C9 -/

theorem alloc_slot_lt {α : Type} (l : Slots α) (z : α) :
    (nft_array_slot_alloc l z).2 < (nft_array_slot_alloc l z).1.length := by
  unfold nft_array_slot_alloc
  cases hf : findNoneIdx l with
  | some i =>
    dsimp only
    rw [List.length_set]
    exact (findNoneIdx_found l i hf).1
  | none =>
    dsimp only
    rw [List.length_set]
    simp

/-- After a successful allocation-and-write of a class whose name had no
occupied match before, a lookup finds exactly the new class (at the allocated
slot) when the stored name matches, and still misses otherwise. -/
theorem find_by_name_after_alloc_set (p : NftPrefs) (x : NftPrefsClass)
    (nm : String) (h : findSlotIdx (fun c => c.name == nm) p.classes = none) :
    prefs_class_find_by_name
        ((nft_array_slot_alloc p.classes zeroClass).1.set
          (nft_array_slot_alloc p.classes zeroClass).2 (some x)) nm =
      if x.name == nm then
        some ((nft_array_slot_alloc p.classes zeroClass).2, x)
      else none := by
  have hs := findSlotIdx_alloc_set (fun c => c.name == nm) p.classes zeroClass x h
  unfold prefs_class_find_by_name
  cases hx : (x.name == nm) with
  | true =>
    simp only [hx, if_true] at hs ⊢
    rw [hs]
    dsimp only
    unfold nft_array_get_element
    rw [getD_set_self _ _ _ _ (alloc_slot_lt p.classes zeroClass)]
    simp
  | false =>
    simp only [hx, Bool.false_eq_true, if_false] at hs ⊢
    rw [hs]

/-- Successful `nft_prefs_class_register`: the resulting context, explicitly.
The stored name is the 64-character truncation of the requested one. -/
theorem class_register_ok (p : NftPrefs) (cn : String)
    (toObj fromObj : Option Nat) (hne : cn.length ≠ 0)
    (hfind : prefs_class_find_by_name p.classes cn = none) :
    nft_prefs_class_register p cn toObj fromObj true =
      (true, ⟨(nft_array_slot_alloc p.classes zeroClass).1.set
        (nft_array_slot_alloc p.classes zeroClass).2
        (some ⟨strncpyName cn, toObj, fromObj, []⟩)⟩) := by
  unfold nft_prefs_class_register
  rw [if_neg hne, hfind]
  dsimp only
  rw [alloc_get]
  simp [nft_array_set_element]

/-! ### Claim C5 -/

/-- Claim C5 (confirmed).  When initialization of the new class's object
registry fails (`objInitOk = false`) after the class slot was allocated,
`nft_prefs_class_register` releases that slot before returning failure: the
occupied slots of the class array after the failed registration are exactly
the occupied slots before it — no leaked slot. -/
theorem C5_failed_register_leaks_no_slot (p : NftPrefs) (cn : String)
    (toObj fromObj : Option Nat) (hne : cn.length ≠ 0)
    (hfind : prefs_class_find_by_name p.classes cn = none) :
    (nft_prefs_class_register p cn toObj fromObj false).1 = false ∧
    occupied (nft_prefs_class_register p cn toObj fromObj false).2.classes =
      occupied p.classes := by
  unfold nft_prefs_class_register
  rw [if_neg hne, hfind]
  dsimp only
  rw [alloc_get]
  dsimp only
  refine ⟨rfl, ?_⟩
  simp only [Bool.false_eq_true, if_false]
  unfold nft_array_slot_free nft_array_set_element nft_array_slot_alloc
  cases hf : findNoneIdx p.classes with
  | some i =>
    dsimp only
    simp only [List.set_set]
    rw [set_none_noop p.classes i (findNoneIdx_found p.classes i hf).2]
  | none =>
    dsimp only
    simp only [List.set_set]
    have hg : (p.classes ++ List.replicate 64 none).getD p.classes.length none =
        (none : Option NftPrefsClass) := by
      rw [show (List.replicate 64 (none : Option NftPrefsClass)) =
        none :: List.replicate 63 none from rfl]
      exact getD_append_length _ _ _ _
    rw [set_none_noop _ _ hg]
    exact occupied_append_replicate p.classes 64

/-- Witness for C5 at a concrete input: registering the fresh class `"d"` in
`pClassC` with failing object-registry initialization. -/
theorem C5_witness :
    (("d" : String).length ≠ 0 ∧
     prefs_class_find_by_name pClassC.classes "d" = none) ∧
    ((nft_prefs_class_register pClassC "d" none none false).1 = false ∧
     occupied (nft_prefs_class_register pClassC "d" none none false).2.classes =
       occupied pClassC.classes) :=
  ⟨⟨by decide, by decide⟩,
   C5_failed_register_leaks_no_slot pClassC "d" none none (by decide) (by decide)⟩

/-! ### Claim C7, amended -/

/-- Claim C7 (corrected, amended).  Unregistering class `A` removes all
object handles registered under `A` (its object registry is emptied and
released), clears its name and callbacks, and leaves every other class slot —
in particular class `B`'s descriptor together with all objects registered
under `B` — unchanged; the class array's capacity is unchanged.  However the
cleared descriptor still OCCUPIES its slot in the class slot array (the slot
is never released), so — contrary to the original claim — the slot does not
become reusable for later registrations. -/
theorem C7_class_unregister_amended (p : NftPrefs) (A B : String)
    (sa sb : Nat) (ca cb : NftPrefsClass)
    (hA : prefs_class_find_by_name p.classes A = some (sa, ca))
    (hB : prefs_class_find_by_name p.classes B = some (sb, cb))
    (hAB : A ≠ B) :
    nft_array_get_element (nft_prefs_class_unregister p A).classes sa =
      some ⟨"", none, none, []⟩ ∧
    (∀ i, i ≠ sa →
      nft_array_get_element (nft_prefs_class_unregister p A).classes i =
        nft_array_get_element p.classes i) ∧
    nft_array_get_element (nft_prefs_class_unregister p A).classes sb = some cb ∧
    (nft_prefs_class_unregister p A).classes.length = p.classes.length := by
  obtain ⟨hlt, hget, hname⟩ := find_by_name_some_elim p.classes A (sa, ca) hA
  obtain ⟨hltB, hgetB, hnameB⟩ := find_by_name_some_elim p.classes B (sb, cb) hB
  have hsab : sb ≠ sa := by
    intro he
    rw [he, hget] at hgetB
    apply hAB
    rw [← hname, ← hnameB]
    cases hgetB
    rfl
  have hstate : nft_prefs_class_unregister p A =
      ⟨nft_array_set_element p.classes sa (prefs_class_free ca)⟩ := by
    unfold nft_prefs_class_unregister
    rw [hA]
  rw [hstate]
  have hfree : prefs_class_free ca = ⟨"", none, none, []⟩ := rfl
  refine ⟨?_, ?_, ?_, ?_⟩
  · unfold nft_array_get_element nft_array_set_element
    rw [getD_set_self _ _ _ _ hlt, hfree]
  · intro i hi
    unfold nft_array_get_element nft_array_set_element
    exact getD_set_ne _ _ _ _ _ hi
  · unfold nft_array_get_element nft_array_set_element
    rw [getD_set_ne _ _ _ _ _ hsab]
    exact hgetB
  · unfold nft_array_set_element
    exact List.length_set _ _ _

/-- Witness for C7 at a concrete input: `pAB` with `A := "A"` (two objects)
and `B := "B"` (one object). -/
theorem C7_witness :
    (prefs_class_find_by_name pAB.classes "A" =
      some (0, ⟨"A", none, some 0,
        ((List.replicate 64 (none : Option NftPrefsObj)).set 0
          (some ⟨10, 0, 0⟩)).set 1 (some ⟨11, 0, 1⟩)⟩) ∧
     prefs_class_find_by_name pAB.classes "B" =
      some (1, ⟨"B", none, some 1,
        (List.replicate 64 (none : Option NftPrefsObj)).set 0
          (some ⟨20, 1, 0⟩)⟩) ∧
     ("A" : String) ≠ "B") ∧
    (nft_array_get_element (nft_prefs_class_unregister pAB "A").classes 0 =
      some ⟨"", none, none, []⟩ ∧
    (∀ i, i ≠ 0 →
      nft_array_get_element (nft_prefs_class_unregister pAB "A").classes i =
        nft_array_get_element pAB.classes i) ∧
    nft_array_get_element (nft_prefs_class_unregister pAB "A").classes 1 =
      some ⟨"B", none, some 1,
        (List.replicate 64 (none : Option NftPrefsObj)).set 0
          (some ⟨20, 1, 0⟩)⟩ ∧
    (nft_prefs_class_unregister pAB "A").classes.length = pAB.classes.length) :=
  ⟨⟨by decide, by decide, by decide⟩,
   C7_class_unregister_amended pAB "A" "B" 0 1
     ⟨"A", none, some 0,
       ((List.replicate 64 (none : Option NftPrefsObj)).set 0
         (some ⟨10, 0, 0⟩)).set 1 (some ⟨11, 0, 1⟩)⟩
     ⟨"B", none, some 1,
       (List.replicate 64 (none : Option NftPrefsObj)).set 0 (some ⟨20, 1, 0⟩)⟩
     (by decide) (by decide) (by decide)⟩

/-- Claim C2 (code bug).  The claim says `nft_prefs_obj_unregister` finds a
registered pointer by pointer equality and frees its slot, and is a reported
no-op on an unregistered pointer.  The code inverts the success test of
`nft_array_find_slot` inside `prefs_obj_find_by_ptr` (its "Object %p not
found" message fires exactly when the object WAS found), so: the registered
pointer `7` is never unregistered (the context is returned unchanged and `7`
is still found afterwards), while unregistering the unregistered pointer `9`
reads the uninitialised slot variable (here the indeterminate value `0`) and
frees the unrelated slot of object `7`. -/
theorem C2_unregister_never_frees_registered :
    objRegistered pObj7 "c" 7 = true ∧
    nft_prefs_obj_unregister pObj7 "c" 7 0 = pObj7 ∧
    objRegistered (nft_prefs_obj_unregister pObj7 "c" 9 0) "c" 7 = false := by
  refine ⟨by decide, by decide, by decide⟩

/-- Claim C3 (code bug).  The claim says both conversion entry points return
failure for an unregistered class name.  The code compares the
`prefs_class_find_by_name` result — a pointer — with `< 0`, which never
holds, so the class-not-found branch is dead and both functions fall through
to dereference the `NULL` class descriptor (`prefs_class_fromObj(c)` /
`prefs_class_toObj(c)`), reaching undefined behaviour instead of returning
failure. -/
theorem C3_unknown_class_crashes :
    nft_prefs_obj_to_node envFail emptyPrefs "x" 1 0 = Outcome.crash ∧
    nft_prefs_obj_from_node envFail emptyPrefs ⟨"x", []⟩ 0 = Outcome.crash := by
  refine ⟨by decide, by decide⟩

/-- Claim C1 (code bug).  The claim (and the header documentation of
`NftPrefsToObjFunc`: "processing will be aborted upon failure") says that a
failing to-object callback makes `nft_prefs_obj_from_node` fail with no new
registration.  The code only logs the callback's failure and continues: with
a callback that returns `NFT_FAILURE` after depositing the non-`NULL`
pointer `5` in `*newObj`, the call registers `5` under the class and returns
it as its (non-`NULL`) result. -/
theorem C1_from_node_ignores_callback_failure :
    nft_prefs_obj_from_node envFailWrite5 pClassC ⟨"c", []⟩ 0 =
      Outcome.ok (5, (nft_prefs_obj_register pClassC "c" 5).2) ∧
    objRegistered (nft_prefs_obj_register pClassC "c" 5).2 "c" 5 = true := by
  refine ⟨by decide, by decide⟩

/-- Claim C6, counterexample to the claim as stated.  Its conjunct
"registering fewer objects than the growth increment (64) never grows
storage" fails at the very first registration: the array starts with capacity
`0` and registering a single object grows it to `64`. -/
theorem C6_counterexample_first_registration_grows :
    legacyFresh.objects.length = 0 ∧
    (legacyObjRegister "c" 1 legacyFresh).1.objects.length = 64 := by
  refine ⟨rfl, by decide⟩

/-- Claim C7, counterexample to the claim as stated.  After
`nft_prefs_class_unregister` on class `"A"` (slot `0` of `pAB`), the name is
cleared but the class's slot is never released in the class slot array
(`prefs_class_free` frees only the object handles): slot `0` stays occupied,
and the next class registration allocates the fresh slot `2` instead of
reusing it — the claim's "its slot becomes reusable" is false. -/
theorem C7_counterexample_slot_not_reused :
    nft_array_get_element (nft_prefs_class_unregister pAB "A").classes 0 =
      some ⟨"", none, none, []⟩ ∧
    (prefs_class_find_by_name
        (nft_prefs_class_register (nft_prefs_class_unregister pAB "A")
          "C" none none true).2.classes "C").map Prod.fst = some 2 := by
  refine ⟨by decide, by decide⟩

/-- Claim C9, counterexample to the claim as stated.  `longNameB` and
`longNameC` are distinct 65-character names sharing their first 64
characters; with `longNameB` registered (stored truncated), registering
`longNameC` SUCCEEDS, because the duplicate check compares the full new name
against the stored truncated one — the claim's "two distinct names sharing
the same first 64 characters are treated as the same class by duplicate
detection" is false. -/
theorem C9_counterexample_shared_prefix_not_duplicate :
    longNameB ≠ longNameC ∧
    strncpyName longNameB = strncpyName longNameC ∧
    (nft_prefs_class_register pLong longNameC none none true).1 = true := by
  refine ⟨by decide, by decide, by decide⟩

/-! ### Claim C9, amended -/

/-- Claim C9 (corrected, amended).  Registering a class name longer than
`NFT_PREFS_MAX_CLASSNAME` (64) characters succeeds and stores only the first
64 characters, so a later lookup — and hence unregistration — using the full
original name does not find the class.  However, duplicate detection compares
the full candidate name against the stored truncated names: contrary to the
original claim, a second over-long name sharing the same first 64 characters
is NOT treated as a duplicate (it registers as well); only a candidate
exactly equal to the 64-character truncation is rejected as a duplicate. -/
theorem C9_truncation_amended (p : NftPrefs) (cn : String)
    (toObj fromObj : Option Nat)
    (hlong : 64 < cn.data.length)
    (hfull : prefs_class_find_by_name p.classes cn = none)
    (htrunc : prefs_class_find_by_name p.classes (strncpyName cn) = none) :
    (nft_prefs_class_register p cn toObj fromObj true).1 = true ∧
    prefs_class_find_by_name
        (nft_prefs_class_register p cn toObj fromObj true).2.classes
        (strncpyName cn) =
      some ((nft_array_slot_alloc p.classes zeroClass).2,
        ⟨strncpyName cn, toObj, fromObj, []⟩) ∧
    prefs_class_find_by_name
        (nft_prefs_class_register p cn toObj fromObj true).2.classes cn = none ∧
    nft_prefs_class_unregister
        (nft_prefs_class_register p cn toObj fromObj true).2 cn =
      (nft_prefs_class_register p cn toObj fromObj true).2 ∧
    (∀ cn2 to2 from2, 64 < cn2.data.length →
      strncpyName cn2 = strncpyName cn →
      prefs_class_find_by_name p.classes cn2 = none →
      (nft_prefs_class_register
        (nft_prefs_class_register p cn toObj fromObj true).2 cn2 to2 from2
        true).1 = true) ∧
    (∀ to2 from2 ok2,
      (nft_prefs_class_register
        (nft_prefs_class_register p cn toObj fromObj true).2
        (strncpyName cn) to2 from2 ok2).1 = false) := by
  have hlenEq : cn.length = cn.data.length := rfl
  have hlen0 : cn.length ≠ 0 := by omega
  have hstate := class_register_ok p cn toObj fromObj hlen0 hfull
  have hlen64 : (strncpyName cn).data.length = 64 := by
    show (cn.data.take 64).length = 64
    rw [List.length_take]
    omega
  have hne2 : ∀ s : String, 64 < s.data.length → strncpyName cn ≠ s := by
    intro s hs he
    have : (strncpyName cn).data.length = s.data.length := by rw [he]
    omega
  have hchar : ∀ nm : String,
      prefs_class_find_by_name p.classes nm = none →
      prefs_class_find_by_name
          (nft_prefs_class_register p cn toObj fromObj true).2.classes nm =
        if strncpyName cn == nm then
          some ((nft_array_slot_alloc p.classes zeroClass).2,
            ⟨strncpyName cn, toObj, fromObj, []⟩)
        else none := by
    intro nm hnm
    rw [hstate]
    exact find_by_name_after_alloc_set p ⟨strncpyName cn, toObj, fromObj, []⟩ nm
      ((find_by_name_none_iff _ _).mp hnm)
  have hfindTr :
      prefs_class_find_by_name
          (nft_prefs_class_register p cn toObj fromObj true).2.classes
          (strncpyName cn) =
        some ((nft_array_slot_alloc p.classes zeroClass).2,
          ⟨strncpyName cn, toObj, fromObj, []⟩) := by
    rw [hchar (strncpyName cn) htrunc]
    simp
  have hfindFull :
      prefs_class_find_by_name
          (nft_prefs_class_register p cn toObj fromObj true).2.classes cn =
        none := by
    rw [hchar cn hfull]
    simp [beq_eq_false_iff_ne.mpr (hne2 cn hlong)]
  refine ⟨?_, hfindTr, hfindFull, ?_, ?_, ?_⟩
  · rw [hstate]
  · unfold nft_prefs_class_unregister
    rw [hfindFull]
  · intro cn2 to2 from2 h2long h2trunc h2find
    have h2len0 : cn2.length ≠ 0 := by
      have h2e : cn2.length = cn2.data.length := rfl
      omega
    have h2after :
        prefs_class_find_by_name
            (nft_prefs_class_register p cn toObj fromObj true).2.classes cn2 =
          none := by
      rw [hchar cn2 h2find]
      simp [beq_eq_false_iff_ne.mpr (hne2 cn2 h2long)]
    rw [class_register_ok _ cn2 to2 from2 h2len0 h2after]
  · intro to2 from2 ok2
    have hlen0t : (strncpyName cn).length ≠ 0 := by
      have he : (strncpyName cn).length = (strncpyName cn).data.length := rfl
      omega
    generalize hq : (nft_prefs_class_register p cn toObj fromObj true).2 = q at hfindTr
    unfold nft_prefs_class_register
    rw [if_neg hlen0t, hfindTr]

/-- Witness for C9 at a concrete input: the 65-character name `longNameB`
registered into the empty context. -/
theorem C9_witness :
    (64 < longNameB.data.length ∧
     prefs_class_find_by_name emptyPrefs.classes longNameB = none ∧
     prefs_class_find_by_name emptyPrefs.classes (strncpyName longNameB) = none) ∧
    (nft_prefs_class_register emptyPrefs longNameB none none true).1 = true :=
  ⟨⟨by decide, by decide, by decide⟩,
   (C9_truncation_amended emptyPrefs longNameB none none (by decide) (by decide)
     (by decide)).1⟩

/-! ### Lemmas on the flat object slot array (niftyprefs.c), for C6 -/

theorem legacyIsFree_rec (cn : String) (o : Nat) (ho : o ≠ 0) :
    legacyIsFree (legacyRec cn o) = false := by
  unfold legacyIsFree legacyRec
  simp [ho]

theorem scanFree_canon (cn : String) (done : List Nat) (m : Nat)
    (hdone : ∀ x ∈ done, x ≠ 0) :
    scanFirstIdx legacyIsFree
        (done.map (legacyRec cn) ++ List.replicate m legacyZero) =
      if m = 0 then none else some done.length := by
  induction done with
  | nil =>
    cases m with
    | zero => rfl
    | succ k => simp [List.replicate_succ, scanFirstIdx, legacyIsFree, legacyZero]
  | cons d ds ih =>
    have hd : d ≠ 0 := hdone d (List.mem_cons_self d ds)
    have ihd := ih (fun x hx => hdone x (List.mem_cons_of_mem d hx))
    cases m with
    | zero =>
      have ihd0 : scanFirstIdx legacyIsFree (List.map (legacyRec cn) ds) = none := by
        simpa using ihd
      simp [scanFirstIdx, legacyIsFree_rec cn d hd, ihd0]
    | succ k => simp [scanFirstIdx, legacyIsFree_rec cn d hd, ihd]

theorem legacyObjFindFree_canon (cn : String) (done : List Nat) (m : Nat)
    (hdone : ∀ x ∈ done, x ≠ 0) :
    legacyObjFindFree
        ⟨done.map (legacyRec cn) ++ List.replicate m legacyZero, done.length⟩ =
      (⟨done.map (legacyRec cn) ++
          List.replicate (if m = 0 then 64 else m) legacyZero, done.length⟩,
       some done.length) := by
  unfold legacyObjFindFree
  dsimp only
  cases m with
  | zero =>
    rw [if_pos (by simp)]
    have hobj : (done.map (legacyRec cn) ++ List.replicate 0 legacyZero) ++
        List.replicate 64 legacyZero =
        done.map (legacyRec cn) ++ List.replicate 64 legacyZero := by simp
    rw [hobj, scanFree_canon cn done 64 hdone]
    simp
  | succ k =>
    rw [if_neg (by simp)]
    rw [scanFree_canon cn done (k + 1) hdone]
    simp

theorem set_after_map (cn : String) (o : Nat) (done : List Nat) (k : Nat) :
    (done.map (legacyRec cn) ++ List.replicate (k + 1) legacyZero).set
        done.length (legacyRec cn o) =
      (done ++ [o]).map (legacyRec cn) ++ List.replicate k legacyZero := by
  have h1 : List.replicate (k + 1) legacyZero =
      legacyZero :: List.replicate k legacyZero := rfl
  rw [h1]
  have h2 := set_append_length (done.map (legacyRec cn)) (legacyRec cn o)
    legacyZero (List.replicate k legacyZero)
  rw [List.length_map] at h2
  rw [h2, List.map_append]
  simp

theorem legacyObjRegister_canon (cn : String) (o : Nat) (done : List Nat)
    (m : Nat) (ho : o ≠ 0) (hdone : ∀ x ∈ done, x ≠ 0) :
    legacyObjRegister cn o
        ⟨done.map (legacyRec cn) ++ List.replicate m legacyZero, done.length⟩ =
      (⟨(done ++ [o]).map (legacyRec cn) ++
          List.replicate (padStep m) legacyZero, (done ++ [o]).length⟩,
       some done.length) := by
  unfold legacyObjRegister
  rw [if_neg ho, legacyObjFindFree_canon cn done m hdone]
  dsimp only
  have hM : (if m = 0 then 64 else m) = padStep m + 1 := by
    unfold padStep
    cases m with
    | zero => rfl
    | succ k => simp
  rw [hM]
  have hset := set_after_map cn o done (padStep m)
  rw [show (⟨0, o, strncpyName cn⟩ : LegacyObj) = legacyRec cn o from rfl, hset]
  simp

theorem legacyRegisterAll_canon (cn : String) (news : List Nat) :
    ∀ (done : List Nat) (m : Nat), (∀ x ∈ done, x ≠ 0) → (∀ x ∈ news, x ≠ 0) →
    legacyRegisterAll cn news
        ⟨done.map (legacyRec cn) ++ List.replicate m legacyZero, done.length⟩ =
      (⟨(done ++ news).map (legacyRec cn) ++
          List.replicate (padAfter m news.length) legacyZero,
        done.length + news.length⟩,
       List.range' done.length news.length) := by
  induction news with
  | nil =>
    intro done m hd hn
    simp [legacyRegisterAll, padAfter]
  | cons o rest ih =>
    intro done m hd hn
    have ho : o ≠ 0 := hn o (List.mem_cons_self o rest)
    unfold legacyRegisterAll
    rw [legacyObjRegister_canon cn o done m ho hd]
    dsimp only
    have hd2 : ∀ x ∈ done ++ [o], x ≠ 0 := by
      intro x hx
      rcases List.mem_append.mp hx with h | h
      · exact hd x h
      · rw [List.mem_singleton.mp h]
        exact ho
    rw [ih (done ++ [o]) (padStep m) hd2
      (fun x hx => hn x (List.mem_cons_of_mem o hx))]
    simp only [Prod.mk.injEq, LegacyObjs.mk.injEq]
    refine ⟨⟨?_, ?_⟩, ?_⟩
    · have hpa : padAfter m (rest.length + 1) = padAfter (padStep m) rest.length := rfl
      rw [List.length_cons, hpa, List.append_assoc]
      rfl
    · simp only [List.length_append, List.length_cons, List.length_nil]
      omega
    · rw [List.length_cons, List.range'_succ]
      simp

theorem padAfter_of_le (k : Nat) : ∀ m : Nat, k ≤ m → padAfter m k = m - k := by
  induction k with
  | zero => intro m _; rfl
  | succ k2 ih =>
    intro m hm
    have hm1 : 1 ≤ m := by omega
    have hstep : padStep m = m - 1 := by
      unfold padStep
      rw [if_neg (by omega)]
    show padAfter (padStep m) k2 = m - (k2 + 1)
    rw [hstep, ih (m - 1) (by omega)]
    omega

theorem maskRec_not_mem (cn : String) (w : List Nat) (x : Nat) (h : x ∉ w) :
    maskRec cn w x = legacyRec cn x := by
  unfold maskRec
  rw [if_neg h]

theorem maskRec_object_ne (cn : String) (w : List Nat) (x o : Nat)
    (ho0 : o ≠ 0) (hx : x ≠ o) : ((maskRec cn w x).object == o) = false := by
  unfold maskRec
  by_cases hxw : x ∈ w
  · rw [if_pos hxw]
    exact beq_eq_false_iff_ne.mpr fun he => ho0 he.symm
  · rw [if_neg hxw]
    exact beq_eq_false_iff_ne.mpr hx

theorem findPtr_mask (cn : String) (o : Nat) (regs : List Nat) :
    ∀ (w : List Nat) (R : List LegacyObj), o ∈ regs → o ≠ 0 → o ∉ w →
    (∀ r ∈ R, r.object = 0) →
    scanFirstIdx (fun r => r.object == o) (regs.map (maskRec cn w) ++ R) =
      some (List.indexOf o regs) := by
  induction regs with
  | nil => intro w R ho _ _ _; exact absurd ho (List.not_mem_nil o)
  | cons r rs ih =>
    intro w R ho ho0 how hR
    by_cases hr : r = o
    · subst hr
      have hhead : maskRec cn w r = legacyRec cn r := maskRec_not_mem cn w r how
      simp [scanFirstIdx, hhead, legacyRec, List.indexOf_cons_self]
    · have hhead : ((maskRec cn w r).object == o) = false :=
        maskRec_object_ne cn w r o ho0 (fun he => hr he)
      have ho2 : o ∈ rs := by
        rcases List.mem_cons.mp ho with h | h
        · exact absurd h.symm hr
        · exact h
      rw [List.indexOf_cons_ne rs hr]
      simp [scanFirstIdx, hhead, ih w R ho2 ho0 how hR]

theorem set_mask (cn : String) (o : Nat) (regs : List Nat) :
    ∀ (w : List Nat) (R : List LegacyObj), o ∈ regs → regs.Nodup →
    (regs.map (maskRec cn w) ++ R).set (List.indexOf o regs) legacyZero =
      regs.map (maskRec cn (o :: w)) ++ R := by
  induction regs with
  | nil => intro w R ho _; exact absurd ho (List.not_mem_nil o)
  | cons r rs ih =>
    intro w R ho hnd
    by_cases hr : r = o
    · subst hr
      rw [List.indexOf_cons_self]
      have hnotin : r ∉ rs := (List.nodup_cons.mp hnd).1
      have hmap : rs.map (maskRec cn (r :: w)) = rs.map (maskRec cn w) := by
        apply List.map_congr_left
        intro x hx
        have hxr : x ≠ r := fun he => hnotin (he ▸ hx)
        unfold maskRec
        by_cases hxw : x ∈ w
        · rw [if_pos hxw, if_pos (List.mem_cons_of_mem r hxw)]
        · rw [if_neg hxw, if_neg (by
            intro hc
            rcases List.mem_cons.mp hc with h | h
            · exact hxr h
            · exact hxw h)]
      have hhead : maskRec cn (r :: w) r = legacyZero := by
        unfold maskRec
        rw [if_pos (List.mem_cons_self r w)]
      simp [hmap, hhead]
    · have ho2 : o ∈ rs := by
        rcases List.mem_cons.mp ho with h | h
        · exact absurd h.symm hr
        · exact h
      rw [List.indexOf_cons_ne rs hr]
      have hhead : maskRec cn (o :: w) r = maskRec cn w r := by
        unfold maskRec
        by_cases hrw : r ∈ w
        · rw [if_pos hrw, if_pos (List.mem_cons_of_mem o hrw)]
        · rw [if_neg hrw, if_neg (by
            intro hc
            rcases List.mem_cons.mp hc with h | h
            · exact hr h
            · exact hrw h)]
      simp only [List.map_cons, List.cons_append, Nat.succ_eq_add_one,
        List.set_cons_succ]
      rw [ih w R ho2 (List.nodup_cons.mp hnd).2, hhead]

theorem legacyObjUnregister_mask (cn : String) (o : Nat) (regs w : List Nat)
    (R : List LegacyObj) (c : Nat) (ho : o ∈ regs) (ho0 : o ≠ 0) (how : o ∉ w)
    (hnd : regs.Nodup) (hR : ∀ r ∈ R, r.object = 0) :
    legacyObjUnregister o ⟨regs.map (maskRec cn w) ++ R, c⟩ =
      ⟨regs.map (maskRec cn (o :: w)) ++ R, c - 1⟩ := by
  unfold legacyObjUnregister
  rw [if_neg ho0, findPtr_mask cn o regs w R ho ho0 how hR]
  dsimp only
  unfold legacyObjClear
  rw [set_mask cn o regs w R ho hnd]

theorem legacyUnregisterAll_mask (cn : String) (regs : List Nat)
    (hnd : regs.Nodup) (h0 : ∀ x ∈ regs, x ≠ 0) :
    ∀ (u w : List Nat) (R : List LegacyObj) (c : Nat),
      u.Nodup → (∀ x ∈ u, x ∈ regs) → (∀ x ∈ u, x ∉ w) →
      (∀ r ∈ R, r.object = 0) →
      legacyUnregisterAll u ⟨regs.map (maskRec cn w) ++ R, c⟩ =
        ⟨regs.map (maskRec cn (u ++ w)) ++ R, c - u.length⟩ := by
  intro u
  induction u with
  | nil =>
    intro w R c _ _ _ _
    simp [legacyUnregisterAll]
  | cons o u2 ih =>
    intro w R c hund husub huw hR
    have ho : o ∈ regs := husub o (List.mem_cons_self o u2)
    have ho0 : o ≠ 0 := h0 o ho
    have how : o ∉ w := huw o (List.mem_cons_self o u2)
    have hstep : legacyUnregisterAll (o :: u2) ⟨regs.map (maskRec cn w) ++ R, c⟩ =
        legacyUnregisterAll u2
          (legacyObjUnregister o ⟨regs.map (maskRec cn w) ++ R, c⟩) := rfl
    rw [hstep, legacyObjUnregister_mask cn o regs w R c ho ho0 how hnd hR]
    rw [ih (o :: w) R (c - 1) (List.nodup_cons.mp hund).2
      (fun x hx => husub x (List.mem_cons_of_mem o hx))
      (fun x hx hxw => by
        rcases List.mem_cons.mp hxw with h | h
        · exact (List.nodup_cons.mp hund).1 (h ▸ hx)
        · exact huw x (List.mem_cons_of_mem o hx) h)
      hR]
    have hmaps : regs.map (maskRec cn (u2 ++ (o :: w))) =
        regs.map (maskRec cn ((o :: u2) ++ w)) := by
      apply List.map_congr_left
      intro x _
      unfold maskRec
      have hiff : (x ∈ u2 ++ (o :: w)) ↔ (x ∈ (o :: u2) ++ w) := by
        simp only [List.mem_append, List.mem_cons]
        tauto
      by_cases hx2 : x ∈ u2 ++ (o :: w)
      · rw [if_pos hx2, if_pos (hiff.mp hx2)]
      · rw [if_neg hx2, if_neg (fun hc => hx2 (hiff.mpr hc))]
    simp only [LegacyObjs.mk.injEq]
    refine ⟨by rw [hmaps], by simp only [List.length_cons]; omega⟩

theorem legacyApply_capacity (op : LegacyOp) (s : LegacyObjs) :
    s.objects.length ≤ (legacyApply op s).objects.length := by
  cases op with
  | reg cn o =>
    show s.objects.length ≤ (legacyObjRegister cn o s).1.objects.length
    unfold legacyObjRegister legacyObjFindFree
    by_cases ho : o = 0
    · rw [if_pos ho]
    · rw [if_neg ho]
      dsimp only
      by_cases hg : s.objects.length ≤ s.objCount
      · rw [if_pos hg]
        cases hscan : scanFirstIdx legacyIsFree
            (s.objects ++ List.replicate 64 legacyZero) with
        | none => simp
        | some i => simp [List.length_set]
      · rw [if_neg hg]
        cases hscan : scanFirstIdx legacyIsFree s.objects with
        | none => simp
        | some i => simp [List.length_set]
  | unreg o =>
    show s.objects.length ≤ (legacyObjUnregister o s).objects.length
    unfold legacyObjUnregister
    by_cases ho : o = 0
    · rw [if_pos ho]
    · rw [if_neg ho]
      cases hscan : scanFirstIdx (fun r => r.object == o) s.objects with
      | none => simp
      | some i => simp [legacyObjClear, List.length_set]

theorem legacyApplyAll_capacity (ops : List LegacyOp) :
    ∀ s : LegacyObjs, s.objects.length ≤ (legacyApplyAll ops s).objects.length := by
  induction ops with
  | nil => intro s; exact Nat.le_refl _
  | cons op rest ih =>
    intro s
    exact Nat.le_trans (legacyApply_capacity op s) (ih (legacyApply op s))

/-! ### Claim C6, amended -/

/-- Claim C6 (corrected, amended).  For the flat object slot array of
niftyprefs.c (`_obj_find_free` / `_obj_clear`): after registering the `N`
distinct objects `regs` from a fresh array and then unregistering all of
them in any order `u`, the next `N` registrations reuse exactly the same `N`
slot indices without growing storage (the capacity after the third phase
equals the capacity after the first).  Registering at most 64 objects (fewer
than or equal to the growth increment) from a fresh array grows storage
exactly once, to the single initial 64-slot block — NOT never, as the
original claim said.  And over any sequence of register/unregister
operations the capacity never shrinks. -/
theorem C6_slot_reuse_amended (cn : String) (regs news u : List Nat)
    (hreg0 : ∀ o ∈ regs, o ≠ 0) (hregN : regs.Nodup)
    (hnew0 : ∀ o ∈ news, o ≠ 0)
    (hlen : news.length = regs.length)
    (hperm : u.Perm regs) :
    ((legacyRegisterAll cn news
        (legacyUnregisterAll u (legacyRegisterAll cn regs legacyFresh).1)).2 =
      (legacyRegisterAll cn regs legacyFresh).2 ∧
     (legacyRegisterAll cn news
        (legacyUnregisterAll u
          (legacyRegisterAll cn regs legacyFresh).1)).1.objects.length =
      (legacyRegisterAll cn regs legacyFresh).1.objects.length) ∧
    (∀ os : List Nat, (∀ o ∈ os, o ≠ 0) → os ≠ [] → os.length ≤ 64 →
      (legacyRegisterAll cn os legacyFresh).1.objects.length = 64) ∧
    (∀ (ops : List LegacyOp) (s : LegacyObjs),
      s.objects.length ≤ (legacyApplyAll ops s).objects.length) := by
  have hfreshCanon : legacyFresh =
      (⟨([] : List Nat).map (legacyRec cn) ++ List.replicate 0 legacyZero,
        ([] : List Nat).length⟩ : LegacyObjs) := rfl
  have hphase : ∀ os : List Nat, (∀ o ∈ os, o ≠ 0) →
      legacyRegisterAll cn os legacyFresh =
        (⟨os.map (legacyRec cn) ++
            List.replicate (padAfter 0 os.length) legacyZero, os.length⟩,
         List.range' 0 os.length) := by
    intro os h0
    rw [hfreshCanon, legacyRegisterAll_canon cn os [] 0 (by simp) h0]
    simp
  have hu_nodup : u.Nodup := (hperm.nodup_iff).mpr hregN
  have hu_mem : ∀ x ∈ u, x ∈ regs := fun x hx => (hperm.mem_iff).mp hx
  have hR : ∀ r ∈ List.replicate (padAfter 0 regs.length) legacyZero,
      r.object = 0 := by
    intro r hr
    rw [List.eq_of_mem_replicate hr]
    rfl
  have hmask0 : regs.map (legacyRec cn) = regs.map (maskRec cn []) := by
    apply List.map_congr_left
    intro x _
    exact (maskRec_not_mem cn [] x (List.not_mem_nil x)).symm
  have h2 : legacyUnregisterAll u (legacyRegisterAll cn regs legacyFresh).1 =
      ⟨regs.map (maskRec cn (u ++ [])) ++
        List.replicate (padAfter 0 regs.length) legacyZero,
       regs.length - u.length⟩ := by
    rw [hphase regs hreg0]
    dsimp only
    rw [hmask0]
    exact legacyUnregisterAll_mask cn regs hregN hreg0 u []
      (List.replicate (padAfter 0 regs.length) legacyZero) regs.length
      hu_nodup hu_mem (fun x _ => List.not_mem_nil x) hR
  have hulen : u.length = regs.length := hperm.length_eq
  have hmaskFull : regs.map (maskRec cn (u ++ [])) =
      List.replicate regs.length legacyZero := by
    refine List.eq_replicate_iff.mpr ⟨by simp, ?_⟩
    intro b hb
    obtain ⟨x, hx, rfl⟩ := List.mem_map.mp hb
    have hxu : x ∈ u := (hperm.mem_iff).mpr hx
    unfold maskRec
    rw [if_pos (List.mem_append.mpr (Or.inl hxu))]
  have h2c : legacyUnregisterAll u (legacyRegisterAll cn regs legacyFresh).1 =
      ⟨([] : List Nat).map (legacyRec cn) ++
        List.replicate (regs.length + padAfter 0 regs.length) legacyZero,
       ([] : List Nat).length⟩ := by
    rw [h2, hmaskFull, hulen, ← List.replicate_add]
    simp
  refine ⟨⟨?_, ?_⟩, ?_, ?_⟩
  · rw [h2c, legacyRegisterAll_canon cn news []
      (regs.length + padAfter 0 regs.length) (by simp) hnew0,
      hphase regs hreg0]
    dsimp only
    rw [hlen]
    rfl
  · rw [h2c, legacyRegisterAll_canon cn news []
      (regs.length + padAfter 0 regs.length) (by simp) hnew0,
      hphase regs hreg0]
    dsimp only
    simp only [List.length_append, List.length_map, List.length_replicate,
      List.nil_append, List.length_nil]
    have hpad := padAfter_of_le news.length
      (regs.length + padAfter 0 regs.length) (by omega)
    omega
  · intro os h0 hne hlen64
    rw [hphase os h0]
    dsimp only
    simp only [List.length_append, List.length_map, List.length_replicate]
    obtain ⟨k2, hk⟩ := Nat.exists_eq_succ_of_ne_zero
      (fun hz => hne (List.eq_nil_of_length_eq_zero hz))
    rw [hk]
    have hstep : padAfter 0 (k2 + 1) = padAfter 63 k2 := rfl
    rw [hstep, padAfter_of_le k2 63 (by omega)]
    omega
  · intro ops s
    exact legacyApplyAll_capacity ops s

/-- Witness for C6 at a concrete input: register `[1, 2]`, unregister them in
the order `[2, 1]`, register `[3, 4]`. -/
theorem C6_witness :
    ((∀ o ∈ [1, 2], o ≠ 0) ∧ ([1, 2] : List Nat).Nodup ∧
     (∀ o ∈ [3, 4], o ≠ 0) ∧ ([3, 4] : List Nat).length = ([1, 2] : List Nat).length ∧
     ([2, 1] : List Nat).Perm [1, 2]) ∧
    ((legacyRegisterAll "c" [3, 4]
        (legacyUnregisterAll [2, 1] (legacyRegisterAll "c" [1, 2] legacyFresh).1)).2 =
      (legacyRegisterAll "c" [1, 2] legacyFresh).2 ∧
     (legacyRegisterAll "c" [3, 4]
        (legacyUnregisterAll [2, 1]
          (legacyRegisterAll "c" [1, 2] legacyFresh).1)).1.objects.length =
      (legacyRegisterAll "c" [1, 2] legacyFresh).1.objects.length) :=
  ⟨⟨by decide, by decide, by decide, by decide, by decide⟩,
   (C6_slot_reuse_amended "c" [1, 2] [3, 4] [2, 1] (by decide) (by decide)
     (by decide) (by decide) (by decide)).1⟩

end Niftyprefs
